import Mathlib

/-!
Verification of the octopulse notification poller against its design
specification.  The Rust sources are shallowly embedded: timestamps are
naturals, upstream fetch results are explicit values, and fallible
operations return `Except` or carry explicit outcome fields.
-/

/-- Timestamps (`chrono::DateTime<Utc>`) are modelled as naturals; only
their linear order matters to the logic under verification. -/
abbrev Timestamp := Nat

/-- models::GithubUser -/
structure GithubUser where
  login : String
  avatar_url : String
deriving DecidableEq, Repr

/-- models::PullRequestState -/
inductive PullRequestState where
  | Merged
  | Draft
  | Closed
  | Open
  | Unknown
deriving DecidableEq, Repr

/-- models::CommentAction -/
inductive CommentAction where
  | Comment
  | ReviewApproved
  | ReviewChangesRequested
  | ReviewDismissed
  | Unknown
deriving DecidableEq, Repr

/-- octocrab::models::IssueState (variants used by the source). -/
inductive IssueState where
  | Open
  | Closed
deriving DecidableEq, Repr

/-- octocrab::models::pulls::ReviewState; `Other` stands for every variant
not named in the `From<ReviewState>` match (e.g. Pending). -/
inductive ReviewState where
  | Approved
  | ChangesRequested
  | Dismissed
  | Commented
  | Other
deriving DecidableEq, Repr

/-- models::PullRequestComment -/
structure PullRequestComment where
  created_at : Option Timestamp
  user : Option GithubUser
  action : CommentAction
  body : String
deriving DecidableEq, Repr

/-- octocrab::models::pulls::Comment — the fields `get_pr_details` reads.
`created_at` is not optional on this type. -/
structure PrComment where
  user : Option GithubUser
  body : String
  created_at : Timestamp
deriving DecidableEq, Repr

/-- octocrab::models::issues::Comment — the fields `get_pr_details` reads.
The source accesses `comment.user` directly (not optional). -/
structure IssueComment where
  user : GithubUser
  body : Option String
  created_at : Timestamp
deriving DecidableEq, Repr

/-- octocrab::models::pulls::Review — the fields `get_pr_details` reads. -/
structure Review where
  user : Option GithubUser
  body : Option String
  submitted_at : Option Timestamp
  state : Option ReviewState
deriving DecidableEq, Repr

/-- The pull-request snapshot fields read by the state classification and
author extraction (octocrab::models::pulls::PullRequest). -/
structure PullRequestSnapshot where
  merged : Option Bool
  draft : Option Bool
  state : Option IssueState
  user : Option GithubUser
deriving DecidableEq, Repr

/-- models::PullRequestDetails (github_client variant, which also carries
the web URL). -/
structure PullRequestDetails where
  author : GithubUser
  state : PullRequestState
  comments : List PullRequestComment
  html_url : String
deriving DecidableEq, Repr

/-- The three paginated collections the upstream API can return for one
pull request.  Each aggregator reads the ones it actually fetches. -/
structure Upstream where
  prComments : List PrComment
  issueComments : List IssueComment
  reviews : List Review
deriving DecidableEq, Repr

/-- impl From<ReviewState> for CommentAction (models.rs). -/
def CommentAction.fromReviewState : ReviewState → CommentAction
  | ReviewState.Approved => CommentAction.ReviewApproved
  | ReviewState.ChangesRequested => CommentAction.ReviewChangesRequested
  | ReviewState.Dismissed => CommentAction.ReviewDismissed
  | ReviewState.Commented => CommentAction.Comment
  | ReviewState.Other => CommentAction.Unknown

/-- The state classification chain of `get_pr_details` (identical in
github_client.rs and github_notification_poller.rs):
`pr.merged.unwrap_or(false)`, then `pr.draft.unwrap_or(false)`, then
`pr.state == Some(Closed)`, then `pr.state == Some(Open)`, else Unknown. -/
def classify_pr_state (merged draft : Option Bool) (state : Option IssueState) :
    PullRequestState :=
  if merged.getD false then PullRequestState.Merged
  else if draft.getD false then PullRequestState.Draft
  else if state = some IssueState.Closed then PullRequestState.Closed
  else if state = some IssueState.Open then PullRequestState.Open
  else PullRequestState.Unknown

/-- `since.is_none_or(|since| created_at > since)` — the filter applied to
both comment collections. -/
def sinceKeepTs (since : Option Timestamp) (t : Timestamp) : Bool :=
  match since with
  | none => true
  | some s => decide (s < t)

/-- `since.is_none_or(|since| review.submitted_at.is_some_and(|x| x > since))`
— the filter applied to the reviews collection. -/
def reviewKeep (since : Option Timestamp) (r : Review) : Bool :=
  match since with
  | none => true
  | some s =>
    match r.submitted_at with
    | none => false
    | some t => decide (s < t)

/-- The map closure over pull-request review comments. -/
def mapPrComment (c : PrComment) : PullRequestComment :=
  { user := c.user
    body := c.body
    created_at := some c.created_at
    action := CommentAction.Comment }

/-- The map closure over issue comments (`comment.body.unwrap_or_default()`). -/
def mapIssueComment (c : IssueComment) : PullRequestComment :=
  { user := some c.user
    body := c.body.getD ""
    created_at := some c.created_at
    action := CommentAction.Comment }

/-- The map closure over reviews
(`review.state.map_or(CommentAction::Unknown, CommentAction::from)`). -/
def mapReview (r : Review) : PullRequestComment :=
  { user := r.user
    body := r.body.getD ""
    created_at := r.submitted_at
    action :=
      match r.state with
      | none => CommentAction.Unknown
      | some s => CommentAction.fromReviewState s }

/-- The `Ord` instance Rust sorts `Option<DateTime<Utc>>` by:
`None` precedes every `Some`, and `Some` values compare by value. -/
def optLe : Option Timestamp → Option Timestamp → Bool
  | none, _ => true
  | some _, none => false
  | some a, some b => decide (a ≤ b)

/-- The sort key relation of `comments.sort_by_key(|f| f.created_at)`. -/
def commentLe (a b : PullRequestComment) : Prop :=
  optLe a.created_at b.created_at = true

instance : DecidableRel commentLe := fun a b => by
  unfold commentLe
  infer_instance

theorem optLe_refl (a : Option Timestamp) : optLe a a = true := by
  cases a <;> simp [optLe]

theorem optLe_total (a b : Option Timestamp) :
    optLe a b = true ∨ optLe b a = true := by
  cases a with
  | none => simp [optLe]
  | some a =>
    cases b with
    | none => simp [optLe]
    | some b => simpa [optLe] using Nat.le_total a b

theorem optLe_trans {a b c : Option Timestamp}
    (h1 : optLe a b = true) (h2 : optLe b c = true) : optLe a c = true := by
  cases a with
  | none => simp [optLe]
  | some a =>
    cases b with
    | none => simp [optLe] at h1
    | some b =>
      cases c with
      | none => simp [optLe] at h2
      | some c =>
        have h1' : a ≤ b := by simpa [optLe] using h1
        have h2' : b ≤ c := by simpa [optLe] using h2
        simpa [optLe] using Nat.le_trans h1' h2'

instance : IsTotal PullRequestComment commentLe :=
  ⟨fun a b => optLe_total a.created_at b.created_at⟩

instance : IsTrans PullRequestComment commentLe :=
  ⟨fun _ _ _ h1 h2 => optLe_trans h1 h2⟩

/-- `Vec::sort_by_key` is a stable sort; it is modelled by the stable
insertion sort over the key order. -/
def sortByCreatedAt (l : List PullRequestComment) : List PullRequestComment :=
  List.insertionSort commentLe l

/-- The three filtered and mapped collections of
`GithubClient::get_pr_details`, concatenated in source order (PR review
comments, issue comments, reviews) just before the final sort. -/
def GithubClient.merged_unsorted (u : Upstream) (since : Option Timestamp) :
    List PullRequestComment :=
  (u.prComments.filter (fun c => sinceKeepTs since c.created_at)).map mapPrComment
  ++ (u.issueComments.filter (fun c => sinceKeepTs since c.created_at)).map mapIssueComment
  ++ (u.reviews.filter (reviewKeep since)).map mapReview

/-- The comment list assembled by `GithubClient::get_pr_details`: the three
filtered and mapped collections, concatenated and sorted by `created_at`. -/
def GithubClient.aggregated_comments (u : Upstream) (since : Option Timestamp) :
    List PullRequestComment :=
  sortByCreatedAt (GithubClient.merged_unsorted u since)

/-- The comment list assembled by `GithubNotificationPoller::get_pr_details`:
this variant fetches only PR review comments and reviews — it never calls
`get_issue_comments` — concatenated in source order and sorted. -/
def GithubNotificationPoller.aggregated_comments (u : Upstream)
    (since : Option Timestamp) : List PullRequestComment :=
  sortByCreatedAt (
    (u.prComments.filter (fun c => sinceKeepTs since c.created_at)).map mapPrComment
    ++ (u.reviews.filter (reviewKeep since)).map mapReview)

/-- The author extraction of `get_pr_details`
(`pr.user` or the literal "unknown" user). -/
def prAuthor (snap : PullRequestSnapshot) : GithubUser :=
  match snap.user with
  | some user => user
  | none => { login := "unknown", avatar_url := "" }

/-- GithubClient::get_pr_details as a pure function of the fetched data. -/
def GithubClient.get_pr_details (owner repo : String) (pr_number : Nat)
    (snap : PullRequestSnapshot) (u : Upstream) (since : Option Timestamp) :
    PullRequestDetails :=
  { author := prAuthor snap
    state := classify_pr_state snap.merged snap.draft snap.state
    comments := GithubClient.aggregated_comments u since
    html_url :=
      "https://github.com/" ++ owner ++ "/" ++ repo ++ "/pull/" ++ toString pr_number }

/-- models (poller variant): the details struct built by
`GithubNotificationPoller::get_pr_details` carries the PR number instead of
a web URL. -/
structure PollerPullRequestDetails where
  pr_number : Nat
  pr_author : GithubUser
  state : PullRequestState
  comments : List PullRequestComment
deriving DecidableEq, Repr

/-- GithubNotificationPoller::get_pr_details as a pure function of the
fetched data.  Note it reads only `prComments` and `reviews` of the
upstream state: the poller variant never calls `get_issue_comments`. -/
def GithubNotificationPoller.get_pr_details (pr_number : Nat)
    (snap : PullRequestSnapshot) (u : Upstream) (since : Option Timestamp) :
    PollerPullRequestDetails :=
  { pr_number := pr_number
    pr_author := prAuthor snap
    state := classify_pr_state snap.merged snap.draft snap.state
    comments := GithubNotificationPoller.aggregated_comments u since }

/-! ### Watermark / poll-cycle model (github_notification_poller.rs run loop) -/

/-- octocrab::models::activity::Notification — the field the watermark
logic reads. -/
structure NotificationRec where
  updated_at : Timestamp
deriving DecidableEq, Repr

/-- GithubNotificationPoller::process_notifications: the loop body attempts
per-item processing (outcome `proc n`), logging failures; the returned
value is `max(updated_at)` over ALL listed items, independent of those
outcomes. -/
def GithubNotificationPoller.process_notifications
    (items : List NotificationRec) (proc : NotificationRec → Bool) :
    Option Timestamp :=
  let _ := items.map proc
  (items.map (fun n => n.updated_at)).max?

/-- The value `run` persists at the end of a cycle: `max_seen + 1s` when
`process_notifications` returned a maximum, `none` (no write) otherwise. -/
def cycle_write (items : List NotificationRec) (proc : NotificationRec → Bool) :
    Option Timestamp :=
  (GithubNotificationPoller.process_notifications items proc).map (fun m => m + 1)

/-- Outcome of `write_last_seen_timestamp` (the error paths it handles and
logs): `ok` — `File::create` and `writeln!` both succeed; `createFail` —
`File::create` fails, the existing file is untouched; `writeFail` —
`File::create` succeeds (truncating the existing file in place) and the
subsequent `writeln!` fails, leaving a corrupt/empty file that
`get_last_seen_timestamp` fails to parse next cycle (read back as no
watermark). -/
inductive WriteResult where
  | ok
  | createFail
  | writeFail
deriving DecidableEq, Repr

/-- The environment of one iteration of `run`: the outcome of
`get_participating_notifications`, the per-notification processing
outcomes, and the outcome of `write_last_seen_timestamp`. -/
structure CycleEnv where
  listing : Except Unit (List NotificationRec)
  proc : NotificationRec → Bool
  write : WriteResult

/-- One iteration of `GithubNotificationPoller::run`, as a transformer of
the persisted watermark (what the next cycle's `get_last_seen_timestamp`
parses): a failed listing leaves it unchanged (the loop `continue`s), an
empty listing produces no write, otherwise `max + 1s` is written — a
failed `File::create` leaves the prior file, while a `writeln!` failure
after the truncating `File::create` leaves a file that parses as no
watermark. -/
def run_cycle (last_seen : Option Timestamp) (listing : Except Unit (List NotificationRec))
    (proc : NotificationRec → Bool) (wr : WriteResult) : Option Timestamp :=
  match listing with
  | Except.error _ => last_seen
  | Except.ok items =>
    match GithubNotificationPoller.process_notifications items proc with
    | none => last_seen
    | some m =>
      match wr with
      | WriteResult.ok => some (m + 1)
      | WriteResult.createFail => last_seen
      | WriteResult.writeFail => none

/-- A sequence of poll cycles, each re-reading the watermark the previous
one left behind. -/
def run_cycles (w : Option Timestamp) : List CycleEnv → Option Timestamp
  | [] => w
  | e :: es => run_cycles (run_cycle w e.listing e.proc e.write) es

/-- The Activity Source contract (spec section 4.2): a successful listing,
queried with `since = w`, returns only notifications updated strictly
after `w`. -/
def validListing (w : Option Timestamp) (listing : Except Unit (List NotificationRec)) :
    Bool :=
  match listing with
  | Except.error _ => true
  | Except.ok items =>
    match w with
    | none => true
    | some s => items.all (fun n => decide (s < n.updated_at))

/-- Every cycle of the sequence satisfies the Activity Source contract
relative to the watermark in force when it ran. -/
def validRun : Option Timestamp → List CycleEnv → Bool
  | _, [] => true
  | w, e :: es =>
    validListing w e.listing && validRun (run_cycle w e.listing e.proc e.write) es

/-- Order on persisted watermark values: an absent watermark is below
everything; a present one never degrades to absent and never decreases. -/
def wmLe : Option Timestamp → Option Timestamp → Prop
  | none, _ => True
  | some _, none => False
  | some a, some b => a ≤ b

theorem wmLe_refl (w : Option Timestamp) : wmLe w w := by
  cases w <;> simp [wmLe]

theorem wmLe_trans {a b c : Option Timestamp} (h1 : wmLe a b) (h2 : wmLe b c) :
    wmLe a c := by
  cases a with
  | none => simp [wmLe]
  | some a =>
    cases b with
    | none => simp [wmLe] at h1
    | some b =>
      cases c with
      | none => simp [wmLe] at h2
      | some c => exact Nat.le_trans h1 h2

/-! ### Avatar cache model (avatar_cache.rs) -/

/-- Cached file contents are byte lists. -/
abbrev Bytes := List Nat

/-- Outcome of `img.write_to(&mut file_writer, ImageFormat::Png)` on the
freshly created (truncated) destination file: either the full PNG is
written, or the write fails leaving whatever bytes reached the file. -/
inductive WriteOutcome where
  | ok (png : Bytes)
  | fail (leftover : Bytes)

/-- The environment of one `download_avatar` call, in source order:
`Url::parse(avatar_url)?`, `reqwest::get(..)` + `resp.bytes()`,
`ImageReader::..decode()?.resize(..)`, `std::fs::File::create(path)?`,
and `img.write_to(..)`.  Images are abstract payloads (naturals). -/
structure DownloadEnv where
  urlOk : Bool
  fetch : Except Unit Bytes
  decode : Bytes → Except Unit Nat
  createOk : Bool
  encodeWrite : Nat → WriteOutcome

/-- Result of a cache operation: the contents at the published cache path
afterwards, the number of network requests issued, and success. -/
structure CacheResult where
  fs : Option Bytes
  fetches : Nat
  ok : Bool
deriving DecidableEq, Repr

/-- AvatarCache::download_avatar over the file-system cell at the cache
path.  `File::create` truncates the existing file in place (there is no
temporary file), so a failing `write_to` leaves its partial bytes at the
published path. -/
def AvatarCache.download_avatar (env : DownloadEnv) (fs : Option Bytes) :
    CacheResult :=
  if !env.urlOk then ⟨fs, 0, false⟩
  else
    match env.fetch with
    | Except.error _ => ⟨fs, 1, false⟩
    | Except.ok bytes =>
      match env.decode bytes with
      | Except.error _ => ⟨fs, 1, false⟩
      | Except.ok img =>
        if !env.createOk then ⟨fs, 1, false⟩
        else
          match env.encodeWrite img with
          | WriteOutcome.ok png => ⟨some png, 1, true⟩
          | WriteOutcome.fail leftover => ⟨some leftover, 1, false⟩

/-- AvatarCache::MAX_CACHE_AGE = 1 day, in seconds. -/
def MAX_CACHE_AGE : Nat := 1 * 24 * 60 * 60

/-- The metadata observations `ensure_avatar` makes on an existing entry:
whether `fs::metadata`, `modified()` and `elapsed()` succeed, and the
resulting age in seconds. -/
structure CacheEntryMeta where
  metadataOk : Bool
  modifiedOk : Bool
  elapsedOk : Bool
  elapsed : Nat

/-- AvatarCache::ensure_avatar: when the entry exists and is demonstrably
younger than the TTL, the cached URI is returned with no network access;
any other case (absent entry, metadata failure, stale entry) falls through
to `download_avatar`. -/
def AvatarCache.ensure_avatar (meta : CacheEntryMeta) (env : DownloadEnv)
    (fs : Option Bytes) : CacheResult :=
  if fs.isSome && meta.metadataOk && meta.modifiedOk && meta.elapsedOk
      && decide (meta.elapsed < MAX_CACHE_AGE) then
    ⟨fs, 0, true⟩
  else
    AvatarCache.download_avatar env fs

/-! ### Comment-body truncation (desktop_notifier.rs) -/

/-- Rust `str::is_char_boundary` over a UTF-8 byte list: position 0 and the
end are boundaries; an interior position is a boundary iff its byte is not
a UTF-8 continuation byte (`0x80..=0xBF`). -/
def isCharBoundary (s : Bytes) (i : Nat) : Bool :=
  if i = 0 then true
  else if i = s.length then true
  else
    match s.get? i with
    | none => false
    | some b => !(decide (128 ≤ b) && decide (b < 192))

/-- UTF-8 bytes of the ellipsis character appended by `truncate_string`. -/
def ellipsisBytes : Bytes := [226, 128, 166]

/-- DesktopNotifier::truncate_string over UTF-8 bytes.  `&s[..MAX_LENGTH]`
panics (modelled as `Except.error`) when byte index 100 is not a character
boundary. -/
def DesktopNotifier.truncate_string (s : Bytes) : Except Unit Bytes :=
  if s.length > 100 then
    if isCharBoundary s 100 then Except.ok (s.take 100 ++ ellipsisBytes)
    else Except.error ()
  else Except.ok s

/-! ### Helper lemmas about the stable sort -/

/-- The sublist of comments carrying one fixed `created_at` key, in order. -/
def commentsWithKey (k : Option Timestamp) (l : List PullRequestComment) :
    List PullRequestComment :=
  l.filter (fun a => decide (a.created_at = k))

theorem commentsWithKey_orderedInsert (k : Option Timestamp)
    (c : PullRequestComment) :
    ∀ l : List PullRequestComment,
      commentsWithKey k (List.orderedInsert commentLe c l)
        = if c.created_at = k then c :: commentsWithKey k l
          else commentsWithKey k l
  | [] => by
    by_cases h : c.created_at = k <;> simp [commentsWithKey, h]
  | b :: bs => by
    by_cases hcb : commentLe c b
    · by_cases h : c.created_at = k <;>
        simp [commentsWithKey, List.orderedInsert, hcb, h]
    · have ih := commentsWithKey_orderedInsert k c bs
      by_cases h : c.created_at = k
      · have hb : ¬(b.created_at = k) := by
          intro hbk
          apply hcb
          unfold commentLe
          rw [h, hbk]
          exact optLe_refl k
        simp only [List.orderedInsert, if_neg hcb]
        simp [commentsWithKey, hb, h] at ih ⊢
        exact ih
      · simp only [List.orderedInsert, if_neg hcb]
        simp [commentsWithKey, h] at ih ⊢
        by_cases hb : b.created_at = k <;> simp [hb, ih]

theorem commentsWithKey_sortByCreatedAt (k : Option Timestamp) :
    ∀ l : List PullRequestComment,
      commentsWithKey k (sortByCreatedAt l) = commentsWithKey k l
  | [] => rfl
  | c :: cs => by
    have ih := commentsWithKey_sortByCreatedAt k cs
    simp only [sortByCreatedAt, List.insertionSort] at ih ⊢
    rw [commentsWithKey_orderedInsert]
    by_cases h : c.created_at = k <;> simp [commentsWithKey, h] at ih ⊢ <;>
      simp [ih]

theorem sortByCreatedAt_sorted (l : List PullRequestComment) :
    List.Sorted commentLe (sortByCreatedAt l) :=
  List.sorted_insertionSort commentLe l

theorem mem_sortByCreatedAt {c : PullRequestComment} {l : List PullRequestComment} :
    c ∈ sortByCreatedAt l ↔ c ∈ l :=
  List.mem_insertionSort commentLe

/-- Every member of the client aggregation arises from one of the three
fetched collections, surviving its since-filter. -/
theorem mem_aggregated_cases {u : Upstream} {since : Option Timestamp}
    {c : PullRequestComment}
    (hc : c ∈ GithubClient.aggregated_comments u since) :
    (∃ x ∈ u.prComments, sinceKeepTs since x.created_at = true ∧ c = mapPrComment x)
    ∨ (∃ x ∈ u.issueComments, sinceKeepTs since x.created_at = true ∧ c = mapIssueComment x)
    ∨ (∃ x ∈ u.reviews, reviewKeep since x = true ∧ c = mapReview x) := by
  have hm : c ∈ GithubClient.merged_unsorted u since := by
    simpa [GithubClient.aggregated_comments, mem_sortByCreatedAt] using hc
  simp only [GithubClient.merged_unsorted, List.mem_append, List.mem_map,
    List.mem_filter] at hm
  rcases hm with (⟨x, ⟨hx, hk⟩, he⟩ | ⟨x, ⟨hx, hk⟩, he⟩) | ⟨x, ⟨hx, hk⟩, he⟩
  · exact Or.inl ⟨x, hx, hk, he.symm⟩
  · exact Or.inr (Or.inl ⟨x, hx, hk, he.symm⟩)
  · exact Or.inr (Or.inr ⟨x, hx, hk, he.symm⟩)

/-- Conversely, every surviving item of each of the three collections is a
member of the client aggregation. -/
theorem mem_aggregated_of_source {u : Upstream} {since : Option Timestamp} :
    (∀ x ∈ u.prComments, sinceKeepTs since x.created_at = true →
       mapPrComment x ∈ GithubClient.aggregated_comments u since)
    ∧ (∀ x ∈ u.issueComments, sinceKeepTs since x.created_at = true →
       mapIssueComment x ∈ GithubClient.aggregated_comments u since)
    ∧ (∀ x ∈ u.reviews, reviewKeep since x = true →
       mapReview x ∈ GithubClient.aggregated_comments u since) := by
  refine ⟨fun x hx hk => ?_, fun x hx hk => ?_, fun x hx hk => ?_⟩ <;>
    simp only [GithubClient.aggregated_comments, mem_sortByCreatedAt,
      GithubClient.merged_unsorted, List.mem_append, List.mem_map,
      List.mem_filter]
  · exact Or.inl (Or.inl ⟨x, ⟨hx, hk⟩, rfl⟩)
  · exact Or.inl (Or.inr ⟨x, ⟨hx, hk⟩, rfl⟩)
  · exact Or.inr ⟨x, ⟨hx, hk⟩, rfl⟩

/-! ### Claim theorems: aggregation -/

/-- C5: pull-request state classification is a pure function of
(merged, draft, state) with first-match-wins precedence
merged > draft > closed > open > unknown; a snapshot with merged=true,
draft=true, state=open classifies as Merged, and a combination matching
none of the first four arms yields Unknown rather than an error. -/
theorem c5_state_classification :
    (∀ (d : Option Bool) (st : Option IssueState),
        classify_pr_state (some true) d st = PullRequestState.Merged)
    ∧ (∀ (m : Option Bool) (st : Option IssueState), m.getD false = false →
        classify_pr_state m (some true) st = PullRequestState.Draft)
    ∧ (∀ m d : Option Bool, m.getD false = false → d.getD false = false →
        classify_pr_state m d (some IssueState.Closed) = PullRequestState.Closed)
    ∧ (∀ m d : Option Bool, m.getD false = false → d.getD false = false →
        classify_pr_state m d (some IssueState.Open) = PullRequestState.Open)
    ∧ (∀ m d : Option Bool, m.getD false = false → d.getD false = false →
        classify_pr_state m d none = PullRequestState.Unknown)
    ∧ classify_pr_state (some true) (some true) (some IssueState.Open)
        = PullRequestState.Merged := by
  refine ⟨fun d st => ?_, fun m st hm => ?_, fun m d hm hd => ?_,
    fun m d hm hd => ?_, fun m d hm hd => ?_, rfl⟩ <;>
    simp [classify_pr_state, *]

/-- C5 witness: the precedence theorem applied at concrete snapshots. -/
theorem c5_witness :
    (some false : Option Bool).getD false = false
    ∧ classify_pr_state (some false) (some true) none = PullRequestState.Draft :=
  ⟨by decide, c5_state_classification.2.1 (some false) none (by decide)⟩

/-- C6: for any input collections the client aggregation is sorted by
`created_at` ascending, and the sort is stable: restricted to any one
key (including the absent key), the output lists the comments in exactly
the order of the concatenated source sequences.  Determinism for equal
input is immediate since the aggregation is a pure function. -/
theorem c6_sorted_and_stable (u : Upstream) (since : Option Timestamp) :
    List.Sorted commentLe (GithubClient.aggregated_comments u since)
    ∧ ∀ k : Option Timestamp,
        commentsWithKey k (GithubClient.aggregated_comments u since)
          = commentsWithKey k (GithubClient.merged_unsorted u since) :=
  ⟨sortByCreatedAt_sorted _, fun k => commentsWithKey_sortByCreatedAt k _⟩

/-- C7: with a present `since`, every comment of the client aggregation has
`created_at` absent or strictly greater than `since`; no present timestamp
at or below `since` survives. -/
theorem c7_output_after_since (u : Upstream) (s : Timestamp)
    (c : PullRequestComment)
    (hc : c ∈ GithubClient.aggregated_comments u (some s)) :
    c.created_at = none ∨ ∃ t, c.created_at = some t ∧ s < t := by
  rcases mem_aggregated_cases hc with ⟨x, _, hk, he⟩ | ⟨x, _, hk, he⟩ | ⟨x, _, hk, he⟩
  · exact Or.inr ⟨x.created_at, by simp [he, mapPrComment],
      by simpa [sinceKeepTs] using hk⟩
  · exact Or.inr ⟨x.created_at, by simp [he, mapIssueComment],
      by simpa [sinceKeepTs] using hk⟩
  · cases hsub : x.submitted_at with
    | none => simp [reviewKeep, hsub] at hk
    | some t =>
      exact Or.inr ⟨t, by simp [he, mapReview, hsub],
        by simpa [reviewKeep, hsub] using hk⟩

/-- Concrete upstream state used by the C7 witness. -/
def c7_upstream : Upstream :=
  { prComments := [{ user := none, body := "b", created_at := 5 }]
    issueComments := []
    reviews := [] }

/-- C7 witness: the filter theorem applied at a concrete aggregation. -/
theorem c7_witness :
    mapPrComment { user := none, body := "b", created_at := 5 }
        ∈ GithubClient.aggregated_comments c7_upstream (some 3)
    ∧ ((mapPrComment { user := none, body := "b", created_at := 5 }).created_at = none
        ∨ ∃ t, (mapPrComment { user := none, body := "b", created_at := 5 }).created_at
            = some t ∧ 3 < t) :=
  ⟨by decide, c7_output_after_since c7_upstream 3 _ (by decide)⟩

/-- A review submitted with no `submitted_at` (e.g. pending state). -/
def c1_review : Review :=
  { user := none, body := none, submitted_at := none, state := none }

/-- Concrete upstream state used to refute C1. -/
def c1_upstream : Upstream :=
  { prComments := [], issueComments := [], reviews := [c1_review] }

/-- C1 counterexample: with a present `since` watermark, a review with no
`submitted_at` IS filtered out by the since-cursor — the aggregated
output is empty, so the claim "items with no timestamp are never
filtered" is false on the code. -/
theorem c1_counterexample :
    c1_review ∈ c1_upstream.reviews
    ∧ c1_review.submitted_at = none
    ∧ mapReview c1_review ∉ GithubClient.aggregated_comments c1_upstream (some 10)
    ∧ GithubClient.aggregated_comments c1_upstream (some 10) = [] :=
  ⟨by decide, rfl, by decide, by decide⟩

/-- C1 amended: with a present `since`, a review with no `submitted_at` is
always filtered out (the review filter demands a present timestamp
strictly greater than `since`), and the output then contains only items
with present timestamps; reviews with absent timestamps survive exactly
when `since` is absent. -/
theorem c1_amended :
    (∀ (s : Timestamp) (r : Review), r.submitted_at = none →
        reviewKeep (some s) r = false)
    ∧ (∀ (u : Upstream) (s : Timestamp) (c : PullRequestComment),
        c ∈ GithubClient.aggregated_comments u (some s) → c.created_at ≠ none)
    ∧ (∀ (u : Upstream) (r : Review), r ∈ u.reviews →
        mapReview r ∈ GithubClient.aggregated_comments u none) := by
  refine ⟨fun s r h => by simp [reviewKeep, h], ?_, ?_⟩
  · intro u s c hc
    rcases mem_aggregated_cases hc with ⟨x, _, hk, he⟩ | ⟨x, _, hk, he⟩ | ⟨x, _, hk, he⟩
    · simp [he, mapPrComment]
    · simp [he, mapIssueComment]
    · cases hsub : x.submitted_at with
      | none => simp [reviewKeep, hsub] at hk
      | some t => simp [he, mapReview, hsub]
  · intro u r hr
    exact mem_aggregated_of_source.2.2 r hr (by simp [reviewKeep])

/-- C1 amended witness: the amended filter law at a concrete review. -/
theorem c1_amended_witness :
    c1_review.submitted_at = none ∧ reviewKeep (some 10) c1_review = false :=
  ⟨rfl, c1_amended.1 10 c1_review rfl⟩

/-- An issue-level comment that survives every since-filter. -/
def c2_issue_comment : IssueComment :=
  { user := { login := "alice", avatar_url := "" }
    body := some "hi", created_at := 5 }

/-- Concrete upstream state used to refute C2. -/
def c2_upstream : Upstream :=
  { prComments := [], issueComments := [c2_issue_comment], reviews := [] }

/-- C2 counterexample: the poller aggregator
(`GithubNotificationPoller::get_pr_details`) builds its output from only
two fetched collections; this surviving issue-level comment never appears
in its output (while the client aggregator does surface it), so the claim
is false for that aggregator. -/
theorem c2_counterexample :
    c2_issue_comment ∈ c2_upstream.issueComments
    ∧ sinceKeepTs none c2_issue_comment.created_at = true
    ∧ mapIssueComment c2_issue_comment
        ∉ GithubNotificationPoller.aggregated_comments c2_upstream none
    ∧ GithubNotificationPoller.aggregated_comments c2_upstream none = []
    ∧ mapIssueComment c2_issue_comment
        ∈ GithubClient.aggregated_comments c2_upstream none :=
  ⟨by decide, rfl, by decide, by decide, by decide⟩

/-- C2 amended: `GithubClient::get_pr_details` builds its output from all
three collections — every item surviving its since-filter appears — while
`GithubNotificationPoller::get_pr_details` fetches only PR review comments
and formal reviews: its output is independent of the issue-level comments
available upstream. -/
theorem c2_amended :
    (∀ (u : Upstream) (since : Option Timestamp),
       (∀ x ∈ u.prComments, sinceKeepTs since x.created_at = true →
          mapPrComment x ∈ GithubClient.aggregated_comments u since)
       ∧ (∀ x ∈ u.issueComments, sinceKeepTs since x.created_at = true →
          mapIssueComment x ∈ GithubClient.aggregated_comments u since)
       ∧ (∀ x ∈ u.reviews, reviewKeep since x = true →
          mapReview x ∈ GithubClient.aggregated_comments u since))
    ∧ (∀ (u : Upstream) (since : Option Timestamp),
        GithubNotificationPoller.aggregated_comments u since
          = GithubNotificationPoller.aggregated_comments
              { u with issueComments := [] } since) :=
  ⟨fun _ _ => mem_aggregated_of_source, fun _ _ => rfl⟩

/-- C2 amended witness: completeness of the client aggregation at a
concrete surviving issue comment. -/
theorem c2_amended_witness :
    c2_issue_comment ∈ c2_upstream.issueComments
    ∧ sinceKeepTs none c2_issue_comment.created_at = true
    ∧ mapIssueComment c2_issue_comment
        ∈ GithubClient.aggregated_comments c2_upstream none :=
  ⟨by decide, rfl, (c2_amended.1 c2_upstream none).2.1 c2_issue_comment (by decide) rfl⟩

/-! ### Claim theorems: watermark -/

/-- One contract-respecting cycle whose watermark write does not fail
mid-write never moves the persisted watermark backward. -/
theorem run_cycle_wmLe (w : Option Timestamp)
    (listing : Except Unit (List NotificationRec))
    (proc : NotificationRec → Bool) (wr : WriteResult)
    (hv : validListing w listing = true)
    (hw : wr ≠ WriteResult.writeFail) :
    wmLe w (run_cycle w listing proc wr) := by
  cases listing with
  | error e => exact wmLe_refl w
  | ok items =>
    simp only [run_cycle]
    cases hm : GithubNotificationPoller.process_notifications items proc with
    | none => exact wmLe_refl w
    | some m =>
      cases wr with
      | createFail => exact wmLe_refl w
      | writeFail => exact absurd rfl hw
      | ok =>
        cases w with
        | none => trivial
        | some s =>
          have hm' : (items.map (fun n => n.updated_at)).max? = some m := by
            simpa [GithubNotificationPoller.process_notifications] using hm
          obtain ⟨hmem, -⟩ := List.max?_eq_some_iff'.mp hm'
          obtain ⟨n, hn, hnm⟩ := List.mem_map.mp hmem
          have hall : ∀ x ∈ items, s < x.updated_at := by
            simpa [validListing] using hv
          have hsm : s < m := by rw [← hnm]; exact hall n hn
          show s ≤ m + 1
          exact le_trans (Nat.le_of_lt hsm) (Nat.le_succ m)

/-- A contract-respecting cycle whose `writeln!` fails after `File::create`
has already truncated the watermark file. -/
def c3_bad_env : CycleEnv :=
  { listing := Except.ok [{ updated_at := 150 }]
    proc := fun _ => true
    write := WriteResult.writeFail }

/-- C3 counterexample: the claim fails on the code — in a cycle whose
watermark write fails after the truncating `File::create`, the persisted
file is left corrupt and is read back as no watermark, so the persisted
watermark regresses from `some 100` to `none` even though the cycle
respected the listing contract. -/
theorem c3_counterexample :
    validRun (some 100) [c3_bad_env] = true
    ∧ run_cycles (some 100) [c3_bad_env] = none
    ∧ ¬ wmLe (some 100) (run_cycles (some 100) [c3_bad_env]) :=
  ⟨by decide, rfl, fun h => h⟩

/-- C3 amended: failed fetches and empty listings leave the persisted
watermark unchanged whatever the write outcome; and across any sequence
of contract-respecting cycles in which no watermark write fails after
`File::create` has truncated the file, the persisted watermark never
decreases — each writing cycle stores `max + 1s`, at least the value it
read.  (A `writeln!` failure after the truncating `File::create` corrupts
the persisted watermark to absent, per the counterexample.) -/
theorem c3_amended :
    (∀ (w : Option Timestamp) (proc : NotificationRec → Bool) (wr : WriteResult),
        run_cycle w (Except.error ()) proc wr = w)
    ∧ (∀ (w : Option Timestamp) (proc : NotificationRec → Bool) (wr : WriteResult),
        run_cycle w (Except.ok []) proc wr = w)
    ∧ (∀ (w : Option Timestamp) (e : CycleEnv), validListing w e.listing = true →
        e.write ≠ WriteResult.writeFail →
        wmLe w (run_cycle w e.listing e.proc e.write))
    ∧ (∀ (w : Option Timestamp) (es : List CycleEnv), validRun w es = true →
        (∀ e ∈ es, e.write ≠ WriteResult.writeFail) →
        wmLe w (run_cycles w es)) := by
  refine ⟨fun w proc wr => rfl, fun w proc wr => rfl,
    fun w e hv hw => run_cycle_wmLe _ _ _ _ hv hw, ?_⟩
  intro w es
  induction es generalizing w with
  | nil => exact fun _ _ => wmLe_refl w
  | cons e es ih =>
    intro hv hw
    simp only [validRun, Bool.and_eq_true] at hv
    exact wmLe_trans
      (run_cycle_wmLe _ _ _ _ hv.1 (hw e (List.mem_cons_self e es)))
      (ih _ hv.2 (fun x hx => hw x (List.mem_cons_of_mem e hx)))

/-- A concrete contract-respecting cycle sequence without mid-write
corruption: one cycle with a fresh notification, one failed fetch, one
empty listing whose write attempt would not even occur. -/
def c3_envs : List CycleEnv :=
  [ { listing := Except.ok [{ updated_at := 10 }], proc := fun _ => false,
      write := WriteResult.ok }
  , { listing := Except.error (), proc := fun _ => true, write := WriteResult.ok }
  , { listing := Except.ok [], proc := fun _ => true,
      write := WriteResult.createFail } ]

/-- C3 amended witness: monotonicity applied along the concrete cycle
sequence. -/
theorem c3_amended_witness :
    validRun (some 5) c3_envs = true
    ∧ (∀ e ∈ c3_envs, e.write ≠ WriteResult.writeFail)
    ∧ wmLe (some 5) (run_cycles (some 5) c3_envs) :=
  ⟨by decide, by decide,
    c3_amended.2.2.2 (some 5) c3_envs (by decide) (by decide)⟩

/-- C4: the new watermark is `max(updated_at)` over all notifications
listed in the cycle — independent of which per-item processings failed —
and `max + 1s` is persisted iff at least one notification was listed;
an empty listing produces no write. -/
theorem c4_watermark_value (items : List NotificationRec)
    (proc proc2 : NotificationRec → Bool) :
    (GithubNotificationPoller.process_notifications items proc
       = GithubNotificationPoller.process_notifications items proc2)
    ∧ (items = [] → cycle_write items proc = none)
    ∧ (cycle_write items proc = none → items = [])
    ∧ (items ≠ [] → ∃ m, m ∈ items.map (fun n => n.updated_at)
        ∧ (∀ t ∈ items.map (fun n => n.updated_at), t ≤ m)
        ∧ GithubNotificationPoller.process_notifications items proc = some m
        ∧ cycle_write items proc = some (m + 1)) := by
  refine ⟨rfl, fun h => by subst h; rfl, ?_, ?_⟩
  · intro h
    have hmax : (items.map (fun n => n.updated_at)).max? = none := by
      simpa [cycle_write, GithubNotificationPoller.process_notifications] using h
    simpa using List.max?_eq_none_iff.mp hmax
  · intro hne
    cases hmax : (items.map (fun n => n.updated_at)).max? with
    | none => exact absurd (by simpa using List.max?_eq_none_iff.mp hmax) hne
    | some m =>
      obtain ⟨hmem, hb⟩ := List.max?_eq_some_iff'.mp hmax
      exact ⟨m, hmem, hb,
        by simpa [GithubNotificationPoller.process_notifications] using hmax,
        by simp [cycle_write, GithubNotificationPoller.process_notifications, hmax]⟩

/-- The notifications of the C4 witness cycle. -/
def c4_items : List NotificationRec := [{ updated_at := 3 }, { updated_at := 7 }]

/-- C4 witness: the watermark-value theorem applied at a concrete cycle in
which the first item's processing fails. -/
theorem c4_witness :
    c4_items ≠ []
    ∧ ∃ m, m ∈ c4_items.map (fun n => n.updated_at)
        ∧ (∀ t ∈ c4_items.map (fun n => n.updated_at), t ≤ m)
        ∧ GithubNotificationPoller.process_notifications c4_items
            (fun _ => false) = some m
        ∧ cycle_write c4_items (fun _ => false) = some (m + 1) :=
  ⟨by decide,
    (c4_watermark_value c4_items (fun _ => false) (fun _ => true)).2.2.2 (by decide)⟩

/-! ### Claim theorems: avatar cache and truncation -/

/-- A download environment whose encode/write step fails after the
destination file has already been created (and therefore truncated). -/
def c8_env : DownloadEnv :=
  { urlOk := true
    fetch := Except.ok [1, 2, 3]
    decode := fun _ => Except.ok 0
    createOk := true
    encodeWrite := fun _ => WriteOutcome.fail [9] }

/-- C8 counterexample: the refresh is not atomic — the new entry is written
directly at the cache path via `File::create`, so when the write fails the
previously cached entry `[7,7,7]` is destroyed and the partial content
`[9]` is observable at the published path. -/
theorem c8_counterexample :
    AvatarCache.download_avatar c8_env (some [7, 7, 7])
      = { fs := some [9], fetches := 1, ok := false }
    ∧ (some [9] : Option Bytes) ≠ some [7, 7, 7] :=
  ⟨rfl, by decide⟩

/-- C8 amended: a failure during URL parsing, fetch, or decode occurs
before the destination file is opened and leaves the prior entry intact;
but the write goes directly to the published cache path (`File::create`
truncates in place — there is no temp-file + atomic publish), so a
failure during the encode/write step leaves the partial bytes at the
published path. -/
theorem c8_amended (env : DownloadEnv) (fs : Option Bytes) :
    (env.urlOk = false →
      AvatarCache.download_avatar env fs = ⟨fs, 0, false⟩)
    ∧ (env.fetch = Except.error () →
      (AvatarCache.download_avatar env fs).fs = fs
      ∧ (AvatarCache.download_avatar env fs).ok = false)
    ∧ (∀ bytes, env.fetch = Except.ok bytes → env.decode bytes = Except.error () →
      (AvatarCache.download_avatar env fs).fs = fs
      ∧ (AvatarCache.download_avatar env fs).ok = false)
    ∧ (env.createOk = false → (AvatarCache.download_avatar env fs).fs = fs)
    ∧ (∀ bytes img leftover, env.urlOk = true → env.fetch = Except.ok bytes →
      env.decode bytes = Except.ok img → env.createOk = true →
      env.encodeWrite img = WriteOutcome.fail leftover →
      AvatarCache.download_avatar env fs = ⟨some leftover, 1, false⟩) := by
  refine ⟨fun h => by simp [AvatarCache.download_avatar, h], ?_, ?_, ?_, ?_⟩
  · intro h
    cases hu : env.urlOk <;> simp [AvatarCache.download_avatar, hu, h]
  · intro bytes hf hd
    cases hu : env.urlOk <;> simp [AvatarCache.download_avatar, hu, hf, hd]
  · intro h
    cases hu : env.urlOk with
    | false => simp [AvatarCache.download_avatar, hu]
    | true =>
      cases hf : env.fetch with
      | error e => simp [AvatarCache.download_avatar, hu, hf]
      | ok bytes =>
        cases hd : env.decode bytes with
        | error e => simp [AvatarCache.download_avatar, hu, hf, hd]
        | ok img => simp [AvatarCache.download_avatar, hu, hf, hd, h]
  · intro bytes img leftover hu hf hd hc hw
    simp [AvatarCache.download_avatar, hu, hf, hd, hc, hw]

/-- A download environment whose network fetch fails. -/
def c8_fetch_fail_env : DownloadEnv :=
  { urlOk := true
    fetch := Except.error ()
    decode := fun _ => Except.ok 0
    createOk := true
    encodeWrite := fun i => WriteOutcome.ok [i] }

/-- C8 amended witness: a failed fetch leaves the prior cached entry in
place. -/
theorem c8_amended_witness :
    c8_fetch_fail_env.fetch = Except.error ()
    ∧ (AvatarCache.download_avatar c8_fetch_fail_env (some [5])).fs = some [5]
    ∧ (AvatarCache.download_avatar c8_fetch_fail_env (some [5])).ok = false :=
  ⟨rfl, ((c8_amended c8_fetch_fail_env (some [5])).2.1 rfl).1,
    ((c8_amended c8_fetch_fail_env (some [5])).2.1 rfl).2⟩

/-- C9: a cache entry demonstrably younger than the 1-day TTL is returned
with zero network fetches and the stored entry untouched; a call on an
entry at or past the TTL issues exactly one fresh fetch, and when the
download succeeds the entry at the cache path is replaced by the fresh
image. -/
theorem c9_ttl_behavior (meta : CacheEntryMeta) (env : DownloadEnv) (b : Bytes) :
    (meta.metadataOk = true → meta.modifiedOk = true → meta.elapsedOk = true →
      meta.elapsed < MAX_CACHE_AGE →
      AvatarCache.ensure_avatar meta env (some b) = ⟨some b, 0, true⟩)
    ∧ (MAX_CACHE_AGE ≤ meta.elapsed → env.urlOk = true →
      (AvatarCache.ensure_avatar meta env (some b)).fetches = 1)
    ∧ (∀ bytes img png, MAX_CACHE_AGE ≤ meta.elapsed → env.urlOk = true →
      env.fetch = Except.ok bytes → env.decode bytes = Except.ok img →
      env.createOk = true → env.encodeWrite img = WriteOutcome.ok png →
      AvatarCache.ensure_avatar meta env (some b) = ⟨some png, 1, true⟩) := by
  refine ⟨?_, ?_, ?_⟩
  · intro h1 h2 h3 h4
    simp [AvatarCache.ensure_avatar, h1, h2, h3, h4]
  · intro hstale hu
    have hlt : ¬(meta.elapsed < MAX_CACHE_AGE) := Nat.not_lt.mpr hstale
    simp only [AvatarCache.ensure_avatar, hlt, decide_False, Bool.and_false,
      Bool.false_and, if_false]
    cases hf : env.fetch with
    | error e => simp [AvatarCache.download_avatar, hu, hf]
    | ok bytes =>
      cases hd : env.decode bytes with
      | error e => simp [AvatarCache.download_avatar, hu, hf, hd]
      | ok img =>
        cases hc : env.createOk with
        | false => simp [AvatarCache.download_avatar, hu, hf, hd, hc]
        | true =>
          cases hw : env.encodeWrite img with
          | ok png => simp [AvatarCache.download_avatar, hu, hf, hd, hc, hw]
          | fail leftover => simp [AvatarCache.download_avatar, hu, hf, hd, hc, hw]
  · intro bytes img png hstale hu hf hd hc hw
    have hlt : ¬(meta.elapsed < MAX_CACHE_AGE) := Nat.not_lt.mpr hstale
    simp [AvatarCache.ensure_avatar, hlt, AvatarCache.download_avatar,
      hu, hf, hd, hc, hw]

/-- Metadata of a fresh cache entry (age 0 seconds). -/
def c9_meta : CacheEntryMeta :=
  { metadataOk := true, modifiedOk := true, elapsedOk := true, elapsed := 0 }

/-- A download environment that would succeed if it were consulted. -/
def c9_env : DownloadEnv :=
  { urlOk := true
    fetch := Except.ok []
    decode := fun _ => Except.ok 0
    createOk := true
    encodeWrite := fun _ => WriteOutcome.ok [] }

/-- C9 witness: the TTL theorem applied at a fresh concrete entry. -/
theorem c9_witness :
    c9_meta.elapsed < MAX_CACHE_AGE
    ∧ AvatarCache.ensure_avatar c9_meta c9_env (some [1])
        = { fs := some [1], fetches := 0, ok := true } :=
  ⟨by decide, (c9_ttl_behavior c9_meta c9_env [1]).1 rfl rfl rfl (by decide)⟩

/-- 99 ASCII bytes followed by a three-byte UTF-8 character: byte index 100
falls inside the multi-byte character. -/
def c10_input : Bytes := List.replicate 99 97 ++ [226, 130, 172]

/-- C10: the truncation claim fails on the code. At this 102-byte input the
100-byte cut point is not a character boundary, so `&s[..100]` panics
(modelled as `Except.error`) instead of returning a truncated string. -/
theorem c10_truncation_panics :
    c10_input.length = 102
    ∧ isCharBoundary c10_input 100 = false
    ∧ DesktopNotifier.truncate_string c10_input = Except.error () :=
  ⟨by decide, by decide, rfl⟩
